import Mathlib

/-!
Verification of the typing-behavior anomaly detector.

The development shallowly embeds the four core components of the system:

* `FeatureExtractor` (services/FeatureExtractor.js): converts keystroke
  events into raw features and normalizes them to vectors of rationals.
* `ModelManager` (services/ModelManager.js): owns the autoencoder model,
  the accumulated training samples, training, prediction and state
  export/import.  The TensorFlow library calls (`tf.sequential` weight
  initialization and `model.fit`) are external to the repository, so they
  are threaded through an `Env` parameter: `Env.init` stands for the
  freshly initialized network produced by `createModel`, and `Env.fit`
  stands for one `model.fit` invocation (10 epochs, shuffled, batch size
  `min batchSize data.length`) returning the updated weights.
* `StorageManager` (services/StorageManager.js): localStorage persistence
  of the model state inside a versioned record.  The storage medium is a
  `Store` holding at most one record under the well-known key, together
  with a plan of write outcomes modelling quota or other failures of
  `localStorage.setItem`.
* the `useTypingBehavior` hook (hooks/useTypingBehavior.js): the phase
  state machine driven by keystrokes and the countdown timer.  React
  state-setter semantics are modelled faithfully: the `phase` value read
  inside `handleKeystroke` is the one captured by `useCallback` when the
  callback was created, i.e. the phase at the start of the event, while
  the stored `phase` field only takes effect for the next event.

JavaScript numbers are modelled as rationals; event timestamps are
rationals as well.  Machine-level floating point rounding plays no role
in any of the verified properties.
-/

/-- Phase of the behavior controller (`idle`, `training`, `predicting`). -/
inductive Phase where
  | idle
  | training
  | predicting
deriving DecidableEq, Repr

/-- Normalization statistics, as produced by `FeatureExtractor.getStats`:
`{ maxKeyCode, maxTimeInterval }`. -/
structure Stats where
  maxKeyCode : ℚ
  maxTimeInterval : ℚ
deriving DecidableEq, Repr

/-- Raw feature triple produced by `extractFeatures`:
`{ prevKey, nextKey, timeInterval }`. -/
structure RawFeature where
  prevKey : ℚ
  nextKey : ℚ
  timeInterval : ℚ
deriving DecidableEq, Repr

/-- JavaScript `x || d` on numbers: falsy (zero) falls back to the default. -/
def jsOr (x d : ℚ) : ℚ := if x = 0 then d else x

/-- State of `FeatureExtractor`. -/
structure FeatureExtractor where
  lastKey : Option ℚ
  lastKeyTime : Option ℚ
  maxTimeInterval : ℚ
  maxKeyCode : ℚ
deriving DecidableEq, Repr

/-- `new FeatureExtractor()`: no history, `maxTimeInterval = 1000`,
`maxKeyCode = 255`. -/
def FeatureExtractor.init : FeatureExtractor :=
  { lastKey := none, lastKeyTime := none, maxTimeInterval := 1000, maxKeyCode := 255 }

/-- `extractFeatures(event)`: on the first keystroke record key and time and
return nothing; afterwards compute the interval, grow `maxTimeInterval` if
exceeded, update the stored key/time, and return the raw feature built from
the previous and current key codes. -/
def FeatureExtractor.extractFeatures (fe : FeatureExtractor) (keyCode now : ℚ) :
    FeatureExtractor × Option RawFeature :=
  match fe.lastKey, fe.lastKeyTime with
  | some lk, some _ =>
      let lt := fe.lastKeyTime.getD 0
      let ti := now - lt
      let fe1 := if fe.maxTimeInterval < ti then { fe with maxTimeInterval := ti } else fe
      ({ fe1 with lastKey := some keyCode, lastKeyTime := some now },
       some { prevKey := lk, nextKey := keyCode, timeInterval := ti })
  | _, _ =>
      ({ fe with lastKey := some keyCode, lastKeyTime := some now }, none)

/-- `normalizeFeatures(features)`: divide key codes by the live `maxKeyCode`
and clamp the interval ratio at `1.0`; `null` input yields `null`. -/
def FeatureExtractor.normalizeFeatures (fe : FeatureExtractor)
    (features : Option RawFeature) : Option (List ℚ) :=
  match features with
  | none => none
  | some f =>
      some [f.prevKey / fe.maxKeyCode, f.nextKey / fe.maxKeyCode,
            min (f.timeInterval / fe.maxTimeInterval) 1]

/-- `normalizeFeaturesWithStats(features, stats)`: same formula but with the
externally supplied statistics; `null` input or stats yield `null`. -/
def FeatureExtractor.normalizeFeaturesWithStats (features : Option RawFeature)
    (stats : Option Stats) : Option (List ℚ) :=
  match features, stats with
  | some f, some st =>
      some [f.prevKey / st.maxKeyCode, f.nextKey / st.maxKeyCode,
            min (f.timeInterval / st.maxTimeInterval) 1]
  | _, _ => none

/-- `getStats()`. -/
def FeatureExtractor.getStats (fe : FeatureExtractor) : Stats :=
  { maxKeyCode := fe.maxKeyCode, maxTimeInterval := fe.maxTimeInterval }

/-- `setStats(stats)`: when given statistics, overwrite both bounds, with the
JavaScript falsy fallbacks `stats.maxKeyCode || 255` and
`stats.maxTimeInterval || 1000`. -/
def FeatureExtractor.setStats (fe : FeatureExtractor) (stats : Option Stats) :
    FeatureExtractor :=
  match stats with
  | none => fe
  | some st =>
      { fe with maxKeyCode := jsOr st.maxKeyCode 255,
                maxTimeInterval := jsOr st.maxTimeInterval 1000 }

/-- `reset()`: clear the key/time history and restore `maxTimeInterval` to its
default; `maxKeyCode` is not touched by reset. -/
def FeatureExtractor.reset (fe : FeatureExtractor) : FeatureExtractor :=
  { fe with lastKey := none, lastKeyTime := none, maxTimeInterval := 1000 }

/-- A weight tensor as exported by `tf.LayersModel.getWeights` followed by
`w.array()`: a kernel is a two-dimensional array, a bias a one-dimensional
array. -/
inductive WTensor where
  | vec (v : List ℚ)
  | mat (m : List (List ℚ))
deriving DecidableEq, Repr

/-- Concrete weights of the fixed autoencoder architecture built by
`createModel`: dense layers 3→2 (relu), 2→1 (relu), 1→2 (relu), 2→3
(linear), each with a kernel and a bias. -/
structure Model where
  w1 : List (List ℚ)
  b1 : List ℚ
  w2 : List (List ℚ)
  b2 : List ℚ
  w3 : List (List ℚ)
  b3 : List ℚ
  w4 : List (List ℚ)
  b4 : List ℚ
deriving DecidableEq, Repr

/-- Rectified linear activation. -/
def relu (x : ℚ) : ℚ := max x 0

/-- Dot product of two vectors of rationals. -/
def dotQ (xs ys : List ℚ) : ℚ := (List.zipWith (· * ·) xs ys).sum

/-- Column `j` of a kernel matrix (rows indexed by input unit). -/
def columnQ (kernel : List (List ℚ)) (j : ℕ) : List ℚ :=
  kernel.map (fun row => row.getD j 0)

/-- One dense layer: `out_j = act (Σ_i in_i * kernel_i_j + bias_j)`. -/
def denseQ (input : List ℚ) (kernel : List (List ℚ)) (bias : List ℚ)
    (act : ℚ → ℚ) : List ℚ :=
  (List.range bias.length).map fun j => act (dotQ input (columnQ kernel j) + bias.getD j 0)

/-- Forward pass of the autoencoder: relu on the three hidden layers,
linear activation on the output layer. -/
def Model.forward (m : Model) (v : List ℚ) : List ℚ :=
  let h1 := denseQ v m.w1 m.b1 relu
  let h2 := denseQ h1 m.w2 m.b2 relu
  let h3 := denseQ h2 m.w3 m.b3 relu
  denseQ h3 m.w4 m.b4 id

/-- Mean squared error between two equally shaped vectors
(`tf.losses.meanSquaredError`). -/
def mseQ (a b : List ℚ) : ℚ :=
  (List.zipWith (fun x y => (x - y) ^ 2) a b).sum / (a.length : ℚ)

/-- The TensorFlow library boundary, external to this repository:
`init` is the freshly initialized network that `createModel` builds
(`tf.sequential` draws its initial weights from the library), and
`fit m data b` is the network after one `model.fit(xs, ys)` call on `m`
with the whole training set as both input and target, effective batch
size `b`, 10 epochs and shuffling. -/
structure Env where
  init : Model
  fit : Model → List (List ℚ) → ℕ → Model

/-- Serialized model state produced by `getModelState`:
`{ weights, featureStats, trainingDataLength }`.  `weights` is optional
because foreign records loaded from storage may lack the field. -/
structure ModelState where
  weights : Option (List WTensor)
  featureStats : Option Stats
  trainingDataLength : ℕ
deriving DecidableEq, Repr

/-- State of `ModelManager`. -/
structure ModelManager where
  model : Option Model
  isTraining : Bool
  trainingData : List (List ℚ)
  featureStats : Option Stats
deriving DecidableEq, Repr

/-- `new ModelManager()`. -/
def ModelManager.init : ModelManager :=
  { model := none, isTraining := false, trainingData := [], featureStats := none }

/-- `addTrainingSample(normalizedFeatures, stats)`: only a non-null vector of
length 3 is appended, and the stats snapshot is recorded with it. -/
def ModelManager.addTrainingSample (mm : ModelManager)
    (normalizedFeatures : Option (List ℚ)) (stats : Stats) : ModelManager :=
  match normalizedFeatures with
  | some v =>
      if v.length = 3 then
        { mm with trainingData := mm.trainingData ++ [v], featureStats := some stats }
      else mm
  | none => mm

/-- Observable side effects of the manager and of the controller. -/
inductive Effect where
  | fitRun
  | trainCall
  | getStateCall
  | saveAttempt
  | scoreUpdate
  | setPhaseTo (p : Phase)
deriving DecidableEq, Repr

/-- `train(batchSize)`: return immediately when fewer than `batchSize`
samples are accumulated or a training call is in flight; otherwise create
the model if absent and run one `fit` pass over the whole training set with
effective batch size `min batchSize data.length`, clearing the busy flag
afterwards.  The returned effect list records whether a fit actually ran. -/
def ModelManager.train (env : Env) (mm : ModelManager) (batchSize : ℕ) :
    ModelManager × List Effect :=
  if mm.trainingData.length < batchSize then (mm, [])
  else if mm.isTraining then (mm, [])
  else
    let m0 := match mm.model with
      | none => env.init
      | some m => m
    let m1 := env.fit m0 mm.trainingData (min batchSize mm.trainingData.length)
    ({ mm with model := some m1, isTraining := false }, [Effect.fitRun])

/-- `predict(normalizedFeatures)`: the neutral default `0.5` when no model
exists or the input is not a length-3 vector; otherwise the reconstruction
error scaled by 10 and clamped at `1.0`. -/
def ModelManager.predict (mm : ModelManager) (normalizedFeatures : Option (List ℚ)) : ℚ :=
  match mm.model, normalizedFeatures with
  | some m, some v =>
      if v.length = 3 then min (10 * mseQ v (m.forward v)) 1
      else 1 / 2
  | _, _ => 1 / 2

/-- Weight tensor list of the architecture, in `getWeights` order:
kernel and bias of each of the four layers. -/
def Model.weightList (m : Model) : List WTensor :=
  [WTensor.mat m.w1, WTensor.vec m.b1, WTensor.mat m.w2, WTensor.vec m.b2,
   WTensor.mat m.w3, WTensor.vec m.b3, WTensor.mat m.w4, WTensor.vec m.b4]

/-- `getModelState()`: nothing without a model, otherwise all layer weights
plus the recorded feature stats and the training sample count. -/
def ModelManager.getModelState (mm : ModelManager) : Option ModelState :=
  match mm.model with
  | none => none
  | some m =>
      some { weights := some m.weightList, featureStats := mm.featureStats,
             trainingDataLength := mm.trainingData.length }

/-- Shape test for a kernel of `r` rows of length `c`. -/
def matShape (m : List (List ℚ)) (r c : ℕ) : Bool :=
  m.length == r && m.all fun row => row.length == c

/-- `model.setWeights` on the fixed architecture: succeeds exactly when the
supplied tensors match the shapes 3×2, 2, 2×1, 1, 1×2, 2, 2×3, 3, in order;
a mismatch throws in TensorFlow, modelled as `none`. -/
def buildModel (ws : List WTensor) : Option Model :=
  match ws with
  | [WTensor.mat w1, WTensor.vec b1, WTensor.mat w2, WTensor.vec b2,
     WTensor.mat w3, WTensor.vec b3, WTensor.mat w4, WTensor.vec b4] =>
      if matShape w1 3 2 && b1.length == 2 && matShape w2 2 1 && b2.length == 1 &&
         matShape w3 1 2 && b3.length == 2 && matShape w4 2 3 && b4.length == 3 then
        some { w1 := w1, b1 := b1, w2 := w2, b2 := b2,
               w3 := w3, b3 := b3, w4 := w4, b4 := b4 }
      else none
  | _ => none

/-- `loadModelState(modelState)`: fail on a null state or missing weights;
otherwise create a fresh model, then assign the stored weights.  When the
shapes are incompatible `setWeights` throws, the error is caught, `false`
is returned and the manager keeps the freshly created model; on success the
feature stats are restored as well.  The training data list is never
touched. -/
def ModelManager.loadModelState (env : Env) (mm : ModelManager)
    (modelState : Option ModelState) : ModelManager × Bool :=
  match modelState with
  | none => (mm, false)
  | some st =>
      match st.weights with
      | none => (mm, false)
      | some ws =>
          let mm1 := { mm with model := some env.init }
          match buildModel ws with
          | some m =>
              ({ mm1 with model := some m, featureStats := st.featureStats }, true)
          | none => (mm1, false)

/-- `isReady()`: a model exists and at least 10 samples are accumulated. -/
def ModelManager.isReady (mm : ModelManager) : Bool :=
  mm.model.isSome && decide (10 ≤ mm.trainingData.length)

/-- `reset()` on the manager. -/
def ModelManager.reset (_mm : ModelManager) : ModelManager := ModelManager.init

/-- Persisted record as built by `saveModel`:
`{ modelState, timestamp, version }`.  `modelState` is optional so that
foreign parseable records lacking the field can be expressed. -/
structure PRecord where
  modelState : Option ModelState
  timestamp : ℚ
  version : String
deriving DecidableEq, Repr

/-- The datum stored under the well-known localStorage key: either a string
that `JSON.parse` rejects (`corrupt`) or a parseable record. -/
inductive StoredData where
  | corrupt
  | record (r : PRecord)
deriving DecidableEq, Repr

/-- Outcome of one `localStorage.setItem` call. -/
inductive WriteOutcome where
  | ok
  | quota
  | otherFail
deriving DecidableEq, Repr

/-- The localStorage medium restricted to the well-known key, plus a plan of
outcomes for successive `setItem` calls (an empty plan means every write
succeeds). -/
structure Store where
  data : Option StoredData
  writePlan : List WriteOutcome
deriving DecidableEq, Repr

/-- Effects of one `saveModel` call on the medium. -/
inductive SaveEffect where
  | writeAttempt
  | clearRecord
deriving DecidableEq, Repr

/-- `localStorage.setItem` under the well-known key: consume the next planned
outcome; on success the datum is replaced, on `quota` or another failure an
exception is raised in the source, modelled by returning the outcome with the
datum unchanged. -/
def Store.setItem (st : Store) (r : StoredData) : Store × WriteOutcome :=
  match st.writePlan with
  | [] => ({ st with data := some r }, WriteOutcome.ok)
  | WriteOutcome.ok :: rest => ({ data := some r, writePlan := rest }, WriteOutcome.ok)
  | o :: rest => ({ st with writePlan := rest }, o)

/-- `clearModel()`: `localStorage.removeItem` under the well-known key. -/
def Store.clearModel (st : Store) : Store := { st with data := none }

/-- `saveModel(modelState)`: a null state returns `false` at once; otherwise
the state is wrapped in a record with the current timestamp and version
`"1.0"` and written.  A quota failure clears the record and retries the
write exactly once; any remaining failure yields `false`, a successful
write `true`. -/
def Store.saveModel (st : Store) (modelState : Option ModelState) (now : ℚ) :
    Store × Bool × List SaveEffect :=
  match modelState with
  | none => (st, false, [])
  | some ms =>
      let rec0 := StoredData.record { modelState := some ms, timestamp := now, version := "1.0" }
      let w1 := st.setItem rec0
      match w1.2 with
      | WriteOutcome.ok => (w1.1, true, [SaveEffect.writeAttempt])
      | WriteOutcome.quota =>
          let st2 := w1.1.clearModel
          let w2 := st2.setItem rec0
          match w2.2 with
          | WriteOutcome.ok =>
              (w2.1, true, [SaveEffect.writeAttempt, SaveEffect.clearRecord, SaveEffect.writeAttempt])
          | _ =>
              (w2.1, false, [SaveEffect.writeAttempt, SaveEffect.clearRecord, SaveEffect.writeAttempt])
      | WriteOutcome.otherFail => (w1.1, false, [SaveEffect.writeAttempt])

/-- `loadModel()`: nothing stored or unparseable data yields `null`; a
parseable record yields `parsed.modelState || null`.  The version tag is
not inspected. -/
def Store.loadModel (st : Store) : Option ModelState :=
  match st.data with
  | none => none
  | some StoredData.corrupt => none
  | some (StoredData.record r) => r.modelState

/-- `modelExists()`. -/
def Store.modelExists (st : Store) : Bool := st.data.isSome

/-- `getMetadata()`: the timestamp and version of a parseable record. -/
def Store.getMetadata (st : Store) : Option (ℚ × String) :=
  match st.data with
  | none => none
  | some StoredData.corrupt => none
  | some (StoredData.record r) => some (r.timestamp, r.version)

/-- State of the `useTypingBehavior` hook: the React state variables, the
three service instances held in refs, and the timer bookkeeping. -/
structure HookState where
  phase : Phase
  timeRemaining : ℤ
  predictionScore : Option ℚ
  samplesCollected : ℕ
  fe : FeatureExtractor
  mm : ModelManager
  storage : Store
  trainingStartTime : Option ℚ
  samplesSinceLastTraining : ℕ
  timerActive : Bool
deriving DecidableEq, Repr

/-- The hook state of a fresh controller (mount with nothing persisted):
phase `idle`, 90 seconds remaining, no score, fresh services. -/
def initialHookState : HookState :=
  { phase := Phase.idle, timeRemaining := 90, predictionScore := none,
    samplesCollected := 0, fe := FeatureExtractor.init, mm := ModelManager.init,
    storage := { data := none, writePlan := [] }, trainingStartTime := none,
    samplesSinceLastTraining := 0, timerActive := true.not }

/-- `handleKeystroke(event)` for an event with the given key code arriving at
the given time.  The branch conditions read the `phase` captured by
`useCallback` at the start of the event; the updated `phase` field is only
observed by later events, exactly as the React closure behaves between
renders. -/
def handleKeystroke (env : Env) (s : HookState) (keyCode now : ℚ) :
    HookState × List Effect :=
  let ex := s.fe.extractFeatures keyCode now
  let s1 := { s with fe := ex.1 }
  match ex.2 with
  | none => (s1, [])
  | some raw =>
      let p := s.phase
      let s2 :=
        if p = Phase.idle then
          { s1 with phase := Phase.training, trainingStartTime := some now,
                    timerActive := true }
        else s1
      if p = Phase.training then
        match s2.fe.normalizeFeatures (some raw) with
        | none => (s2, [])
        | some v =>
            let stats := s2.fe.getStats
            let mm1 := s2.mm.addTrainingSample (some v) stats
            let s3 := { s2 with
                        mm := mm1,
                        samplesCollected := s2.samplesCollected + 1,
                        samplesSinceLastTraining := s2.samplesSinceLastTraining + 1 }
            if 10 ≤ s3.samplesSinceLastTraining then
              let s4 := { s3 with samplesSinceLastTraining := 0 }
              let tr := s4.mm.train env 10
              ({ s4 with mm := tr.1 }, Effect.trainCall :: tr.2)
            else (s3, [])
      else if p = Phase.predicting then
        match FeatureExtractor.normalizeFeaturesWithStats (some raw) s2.mm.featureStats with
        | none => (s2, [])
        | some v =>
            let score := s2.mm.predict (some v)
            ({ s2 with predictionScore := some score }, [Effect.scoreUpdate])
      else (s2, [])

/-- One tick of the countdown interval at the given wall-clock time: update
the displayed remaining seconds; at expiry stop the timer, move to
`predicting`, run the final `train`, read the model state and, when one
exists, hand it to `saveModel` — in that order. -/
def timerTick (env : Env) (s : HookState) (now : ℚ) : HookState × List Effect :=
  if s.timerActive = false then (s, [])
  else
    let elapsed := now - s.trainingStartTime.getD 0
    let remaining := max 0 (90000 - elapsed)
    let s1 := { s with timeRemaining := ⌈remaining / 1000⌉ }
    if remaining ≤ 0 then
      let s2 := { s1 with timerActive := false, phase := Phase.predicting }
      let tr := s2.mm.train env 10
      let stOpt := tr.1.getModelState
      match stOpt with
      | some st =>
          let sv := s2.storage.saveModel (some st) now
          ({ s2 with mm := tr.1, storage := sv.1 },
           Effect.setPhaseTo Phase.predicting :: Effect.trainCall :: tr.2 ++
             [Effect.getStateCall, Effect.saveAttempt])
      | none =>
          ({ s2 with mm := tr.1 },
           Effect.setPhaseTo Phase.predicting :: Effect.trainCall :: tr.2 ++
             [Effect.getStateCall])
    else (s1, [])

/-- Feed a list of `(keyCode, time)` events through `handleKeystroke`,
collecting the effects of each event. -/
def runEvents (env : Env) (s : HookState) (evs : List (ℚ × ℚ)) :
    HookState × List (List Effect) :=
  evs.foldl
    (fun acc ev =>
      let r := handleKeystroke env acc.1 ev.1 ev.2
      (r.1, acc.2 ++ [r.2]))
    (s, [])

/-- A concrete, well-shaped network of the fixed architecture (all weights
zero), standing in for one possible output of the external initializer. -/
def model0 : Model :=
  { w1 := [[0, 0], [0, 0], [0, 0]], b1 := [0, 0], w2 := [[0], [0]], b2 := [0],
    w3 := [[0, 0]], b3 := [0, 0], w4 := [[0, 0, 0], [0, 0, 0]], b4 := [0, 0, 0] }

/-- A concrete TensorFlow environment: `createModel` yields `model0` and a
fit pass leaves the weights unchanged. -/
def env0 : Env := { init := model0, fit := fun m _ _ => m }

/-- Twelve synthetic key events, 50 ms apart, with distinct key codes
65, 66, …, 76. -/
def evts12 : List (ℚ × ℚ) :=
  (List.range 12).map fun k => ((65 + k : ℚ), (50 * (k + 1) : ℚ))

/-- Default normalization statistics of a fresh extractor. -/
def statsDefault : Stats := { maxKeyCode := 255, maxTimeInterval := 1000 }

/-- A sample raw feature: key 65 followed by key 66 after 50 ms. -/
def fDemo : RawFeature := { prevKey := 65, nextKey := 66, timeInterval := 50 }

/-- A manager holding three samples, fewer than the batch threshold. -/
def mmSmall : ModelManager :=
  { model := none, isTraining := false,
    trainingData := [[0, 0, 0], [1, 1, 1], [1/2, 1/2, 1/2]],
    featureStats := some statsDefault }

/-- A manager with exactly one batch of samples and no model yet. -/
def mmBatch : ModelManager :=
  { model := none, isTraining := false,
    trainingData := List.replicate 10 [1/2, 1/2, 1/2],
    featureStats := some statsDefault }

/-- A manager holding a trained model and one batch of samples. -/
def mmTrained : ModelManager :=
  { model := some model0, isTraining := false,
    trainingData := List.replicate 10 [1/2, 1/2, 1/2],
    featureStats := some statsDefault }

/-- The state `mmTrained.getModelState` exports. -/
def stTrained : ModelState :=
  { weights := some model0.weightList, featureStats := some statsDefault,
    trainingDataLength := 10 }

/-- An empty storage medium whose writes all succeed. -/
def storeEmpty : Store := { data := none, writePlan := [] }

/-- A storage medium whose next write fails with a quota error. -/
def storeQuota : Store := { data := none, writePlan := [WriteOutcome.quota] }

/-- A model state as a foreign tool might persist it. -/
def msForeign : ModelState :=
  { weights := some [], featureStats := none, trainingDataLength := 7 }

/-- A parseable stored record carrying the foreign version tag `"2.0"`. -/
def storeForeign : Store :=
  { data := some (StoredData.record
      { modelState := some msForeign, timestamp := 123, version := "2.0" }),
    writePlan := [] }

/-- A controller state whose countdown is about to expire: timer active,
training started at time 0, one untrained batch collected. -/
def sExpiry : HookState :=
  { phase := Phase.training, timeRemaining := 1, predictionScore := none,
    samplesCollected := 10, fe := FeatureExtractor.init, mm := mmBatch,
    storage := storeEmpty, trainingStartTime := some 0,
    samplesSinceLastTraining := 0, timerActive := true }

/-- Forget the model weights of a manager.  Everything except the weights —
the busy flag, the training data and the stats — is computed by the
repository code itself and never depends on what the external TensorFlow
calls return. -/
def scrubMM (mm : ModelManager) : ModelManager := { mm with model := none }

/-- Forget the two hook-state components whose values originate in the
external TensorFlow environment: the model weights and the prediction
score. -/
def scrub (s : HookState) : HookState :=
  { s with mm := scrubMM s.mm, predictionScore := none }

lemma zipWith_sq_sum_nonneg :
    ∀ a b : List ℚ, 0 ≤ (List.zipWith (fun x y => (x - y) ^ 2) a b).sum := by
  intro a
  induction a with
  | nil => intro b; simp
  | cons x xs ih =>
      intro b
      cases b with
      | nil => simp
      | cons y ys =>
          simp only [List.zipWith, List.sum_cons]
          exact add_nonneg (sq_nonneg _) (ih ys)

lemma mseQ_nonneg (a b : List ℚ) : 0 ≤ mseQ a b := by
  unfold mseQ
  exact div_nonneg (zipWith_sq_sum_nonneg a b) (by positivity)

/-- Claim C3: for every raw feature with a non-negative time interval and key
codes within the normalization ceiling, every component of the vector
returned by `normalizeFeatures` (live stats, with positive maxima as a fresh
extractor always has) and by `normalizeFeaturesWithStats` (supplied stats
with positive maxima) lies in `[0, 1]`. -/
theorem normalize_components_in_unit_interval
    (fe : FeatureExtractor) (st : Stats) (f : RawFeature)
    (hp0 : 0 ≤ f.prevKey) (hn0 : 0 ≤ f.nextKey) (ht0 : 0 ≤ f.timeInterval)
    (hpf : f.prevKey ≤ fe.maxKeyCode) (hnf : f.nextKey ≤ fe.maxKeyCode)
    (hps : f.prevKey ≤ st.maxKeyCode) (hns : f.nextKey ≤ st.maxKeyCode)
    (hfk : 0 < fe.maxKeyCode) (hft : 0 < fe.maxTimeInterval)
    (hsk : 0 < st.maxKeyCode) (hst : 0 < st.maxTimeInterval) :
    (∀ x ∈ (fe.normalizeFeatures (some f)).getD [], 0 ≤ x ∧ x ≤ 1) ∧
    (∀ x ∈ (FeatureExtractor.normalizeFeaturesWithStats (some f) (some st)).getD [],
        0 ≤ x ∧ x ≤ 1) := by
  constructor
  · intro x hx
    simp only [FeatureExtractor.normalizeFeatures, Option.getD_some, List.mem_cons,
      List.mem_singleton, List.not_mem_nil, or_false] at hx
    rcases hx with h | h | h <;> subst h
    · exact ⟨div_nonneg hp0 hfk.le, (div_le_one hfk).mpr hpf⟩
    · exact ⟨div_nonneg hn0 hfk.le, (div_le_one hfk).mpr hnf⟩
    · exact ⟨le_min (div_nonneg ht0 hft.le) zero_le_one, min_le_right _ _⟩
  · intro x hx
    simp only [FeatureExtractor.normalizeFeaturesWithStats, Option.getD_some, List.mem_cons,
      List.mem_singleton, List.not_mem_nil, or_false] at hx
    rcases hx with h | h | h <;> subst h
    · exact ⟨div_nonneg hp0 hsk.le, (div_le_one hsk).mpr hps⟩
    · exact ⟨div_nonneg hn0 hsk.le, (div_le_one hsk).mpr hns⟩
    · exact ⟨le_min (div_nonneg ht0 hst.le) zero_le_one, min_le_right _ _⟩

/-- Witness for claim C3 at a fresh extractor, the default statistics and the
feature (65, 66, 50 ms). -/
theorem normalize_components_in_unit_interval_witness :
    (∀ x ∈ (FeatureExtractor.init.normalizeFeatures (some fDemo)).getD [], 0 ≤ x ∧ x ≤ 1) ∧
    (∀ x ∈ (FeatureExtractor.normalizeFeaturesWithStats (some fDemo)
        (some statsDefault)).getD [], 0 ≤ x ∧ x ≤ 1) :=
  normalize_components_in_unit_interval FeatureExtractor.init statsDefault fDemo
    (by norm_num [fDemo]) (by norm_num [fDemo]) (by norm_num [fDemo])
    (by norm_num [fDemo, FeatureExtractor.init]) (by norm_num [fDemo, FeatureExtractor.init])
    (by norm_num [fDemo, statsDefault]) (by norm_num [fDemo, statsDefault])
    (by norm_num [FeatureExtractor.init]) (by norm_num [FeatureExtractor.init])
    (by norm_num [statsDefault]) (by norm_num [statsDefault])

/-- Claim C4: `train` called with fewer accumulated samples than the batch
threshold returns with the manager state exactly as before — model (or its
absence), training data and stats untouched — and performs no effect at all;
in particular no fit pass runs and no persistence write can occur, since
`train` never touches the storage medium. -/
theorem train_insufficient_data_is_noop (env : Env) (mm : ModelManager) (batchSize : ℕ)
    (h : mm.trainingData.length < batchSize) :
    ModelManager.train env mm batchSize = (mm, []) := by
  simp [ModelManager.train, h]

/-- Witness for claim C4: three samples against the threshold of ten. -/
theorem train_insufficient_data_is_noop_witness :
    mmSmall.trainingData.length < 10 ∧ ModelManager.train env0 mmSmall 10 = (mmSmall, []) :=
  ⟨by decide, train_insufficient_data_is_noop env0 mmSmall 10 (by decide)⟩

/-- Claim C5: `predict` returns the neutral default `0.5` whenever no model
exists or the input is not a length-3 vector; otherwise it returns
`min (10 * mse(input, reconstruction)) 1`; and in every case the result lies
in `[0, 1]`. -/
theorem predict_default_and_bounds (mm : ModelManager) (vOpt : Option (List ℚ)) :
    (0 ≤ mm.predict vOpt ∧ mm.predict vOpt ≤ 1) ∧
    (mm.model = none → mm.predict vOpt = 1 / 2) ∧
    (vOpt = none → mm.predict vOpt = 1 / 2) ∧
    (∀ v, vOpt = some v → v.length ≠ 3 → mm.predict vOpt = 1 / 2) ∧
    (∀ m v, mm.model = some m → vOpt = some v → v.length = 3 →
        mm.predict vOpt = min (10 * mseQ v (m.forward v)) 1) := by
  refine ⟨?_, ?_, ?_, ?_, ?_⟩
  · unfold ModelManager.predict
    rcases hm : mm.model with _ | m <;> rcases hv : vOpt with _ | v <;>
      simp only []
    · norm_num
    · norm_num
    · norm_num
    · by_cases hl : v.length = 3
      · simp only [hl, if_pos rfl]
        constructor
        · exact le_min (mul_nonneg (by norm_num) (mseQ_nonneg _ _)) zero_le_one
        · exact min_le_right _ _
      · simp only [if_neg hl]
        norm_num
  · intro hm
    unfold ModelManager.predict
    rcases hv : vOpt with _ | v <;> simp [hm]
  · intro hv
    unfold ModelManager.predict
    rcases hm : mm.model with _ | m <;> simp [hv]
  · intro v hv hl
    unfold ModelManager.predict
    rcases hm : mm.model with _ | m <;> simp [hv, hm, hl]
  · intro m v hm hv hl
    unfold ModelManager.predict
    simp [hm, hv, hl]

/-- Witness for claim C5: a fresh manager scores `0.5` on any input, and the
bounds hold at a concrete trained manager and vector. -/
theorem predict_default_and_bounds_witness :
    ModelManager.predict ModelManager.init (some [0, 0, 0]) = 1 / 2 ∧
    (0 ≤ mmTrained.predict (some [0, 0, 0]) ∧ mmTrained.predict (some [0, 0, 0]) ≤ 1) :=
  ⟨(predict_default_and_bounds ModelManager.init (some [0, 0, 0])).2.1 rfl,
   (predict_default_and_bounds mmTrained (some [0, 0, 0])).1⟩

/-- Counterexample to claim C2: `loadModel` never inspects the version tag.
A parseable stored record whose version is the foreign `"2.0"` still has its
model state returned, instead of being treated as absent. -/
theorem loadModel_returns_foreign_version_state :
    (storeForeign.getMetadata.map Prod.snd = some "2.0") ∧
    storeForeign.loadModel = some msForeign := by
  exact ⟨rfl, rfl⟩

/-- Claim C2 as amended: `loadModel` returns nothing when no record is stored
or when the stored data fails to parse, and otherwise returns the parsed
record field `modelState` (or nothing when that field is absent) — the
version tag of a parseable record is not examined at all. -/
theorem loadModel_total_behavior (st : Store) :
    (st.data = none → st.loadModel = none) ∧
    (st.data = some StoredData.corrupt → st.loadModel = none) ∧
    (∀ r, st.data = some (StoredData.record r) → st.loadModel = r.modelState) := by
  refine ⟨?_, ?_, ?_⟩
  · intro h; simp [Store.loadModel, h]
  · intro h; simp [Store.loadModel, h]
  · intro r h; simp [Store.loadModel, h]

/-- Witness for the amended claim C2 at an empty store and at a store holding
corrupt data. -/
theorem loadModel_total_behavior_witness :
    storeEmpty.loadModel = none ∧
    Store.loadModel { data := some StoredData.corrupt, writePlan := [] } = none :=
  ⟨(loadModel_total_behavior storeEmpty).1 rfl,
   (loadModel_total_behavior { data := some StoredData.corrupt, writePlan := [] }).2.1 rfl⟩

/-- Claim C6: persistence round-trip.  For a model state exported by
`getModelState` (which exists exactly after a completed training pass created
the model), saving it on a medium whose write succeeds and loading again
returns the very same state: weights, feature stats and sample count all
agree. -/
theorem save_load_roundtrip (mm : ModelManager) (st : ModelState) (store : Store) (now : ℚ)
    (hexport : mm.getModelState = some st) (hplan : store.writePlan = []) :
    ((store.saveModel (some st) now).2.1 = true) ∧
    Store.loadModel (store.saveModel (some st) now).1 = some st ∧
    ∀ st', Store.loadModel (store.saveModel (some st) now).1 = some st' →
      st'.weights = st.weights ∧ st'.featureStats = st.featureStats ∧
      st'.trainingDataLength = st.trainingDataLength := by
  have hsave : store.saveModel (some st) now =
      ({ data := some (StoredData.record
            { modelState := some st, timestamp := now, version := "1.0" }),
         writePlan := [] }, true, [SaveEffect.writeAttempt]) := by
    simp [Store.saveModel, Store.setItem, hplan]
  refine ⟨by simp [hsave], by simp [hsave, Store.loadModel], ?_⟩
  intro st' h
  rw [hsave] at h
  simp [Store.loadModel] at h
  simp [← h]

/-- Witness for claim C6 at the trained manager `mmTrained` and an empty
store. -/
theorem save_load_roundtrip_witness :
    ((storeEmpty.saveModel (some stTrained) 777).2.1 = true) ∧
    Store.loadModel (storeEmpty.saveModel (some stTrained) 777).1 = some stTrained :=
  ⟨(save_load_roundtrip mmTrained stTrained storeEmpty 777 (by decide) rfl).1,
   (save_load_roundtrip mmTrained stTrained storeEmpty 777 (by decide) rfl).2.1⟩

/-- Counterexample to claim C7: `setStats` overwrites `maxKeyCode` with the
supplied value, so feeding stats with `maxKeyCode = 300` changes the
extractor ceiling away from 255. -/
theorem setStats_changes_maxKeyCode :
    (FeatureExtractor.init.setStats
        (some { maxKeyCode := 300, maxTimeInterval := 1000 })).maxKeyCode = 300 ∧
    ((300 : ℚ) ≠ 255) := by
  exact ⟨by decide, by decide⟩

/-- Claim C7 as amended: `maxKeyCode` is initialized to 255 and is never
changed by `extractFeatures`, by `reset`, or by `setStats` with no stats;
`setStats` with stats, however, overwrites it with the supplied
`maxKeyCode` value, falling back to 255 only when that value is falsy
(zero).  The two normalization functions do not mutate the extractor at
all, being pure functions of it. -/
theorem maxKeyCode_update_behavior (fe : FeatureExtractor) (keyCode now : ℚ) (st : Stats) :
    FeatureExtractor.init.maxKeyCode = 255 ∧
    (fe.extractFeatures keyCode now).1.maxKeyCode = fe.maxKeyCode ∧
    fe.reset.maxKeyCode = fe.maxKeyCode ∧
    (fe.setStats none).maxKeyCode = fe.maxKeyCode ∧
    (fe.setStats (some st)).maxKeyCode = jsOr st.maxKeyCode 255 := by
  refine ⟨rfl, ?_, rfl, rfl, rfl⟩
  unfold FeatureExtractor.extractFeatures
  rcases hk : fe.lastKey with _ | lk <;> rcases ht : fe.lastKeyTime with _ | lt <;>
    simp only [] <;> try rfl
  split <;> rfl

/-- Claim C8: a null model state is rejected outright; otherwise the record
is written once, a quota failure clears the stored record and retries the
write exactly once (and only a quota failure does), the result is `true`
exactly when the first write or the single retry succeeded, and every
failure surfaces as `false` rather than an exception (the function is
total). -/
theorem saveModel_quota_retry (store : Store) (ms : ModelState) (now : ℚ) :
    (store.writePlan.headD WriteOutcome.ok = WriteOutcome.ok →
        (store.saveModel (some ms) now).2.1 = true ∧
        (store.saveModel (some ms) now).2.2 = [SaveEffect.writeAttempt] ∧
        (store.saveModel (some ms) now).1.data =
          some (StoredData.record { modelState := some ms, timestamp := now, version := "1.0" })) ∧
    (store.writePlan.headD WriteOutcome.ok = WriteOutcome.quota →
        (store.saveModel (some ms) now).2.2 =
          [SaveEffect.writeAttempt, SaveEffect.clearRecord, SaveEffect.writeAttempt] ∧
        ((store.saveModel (some ms) now).2.1 = true ↔
          store.writePlan.tail.headD WriteOutcome.ok = WriteOutcome.ok) ∧
        (store.writePlan.tail.headD WriteOutcome.ok = WriteOutcome.ok →
          (store.saveModel (some ms) now).1.data =
            some (StoredData.record { modelState := some ms, timestamp := now, version := "1.0" })) ∧
        (store.writePlan.tail.headD WriteOutcome.ok ≠ WriteOutcome.ok →
          (store.saveModel (some ms) now).1.data = none)) ∧
    (store.writePlan.headD WriteOutcome.ok = WriteOutcome.otherFail →
        (store.saveModel (some ms) now).2.1 = false ∧
        (store.saveModel (some ms) now).2.2 = [SaveEffect.writeAttempt] ∧
        (store.saveModel (some ms) now).1.data = store.data) := by
  rcases store with ⟨data, plan⟩
  rcases plan with _ | ⟨o, rest⟩
  · refine ⟨?_, ?_, ?_⟩ <;> intro h <;>
      simp_all [Store.saveModel, Store.setItem, Store.clearModel, List.headD]
  · rcases o with _ | _ | _
    · refine ⟨?_, ?_, ?_⟩ <;> intro h <;>
        simp_all [Store.saveModel, Store.setItem, Store.clearModel, List.headD]
    · rcases rest with _ | ⟨o2, rest2⟩
      · refine ⟨?_, ?_, ?_⟩ <;> intro h <;>
          simp_all [Store.saveModel, Store.setItem, Store.clearModel, List.headD]
      · rcases o2 with _ | _ | _ <;> refine ⟨?_, ?_, ?_⟩ <;> intro h <;>
          simp_all [Store.saveModel, Store.setItem, Store.clearModel, List.headD]
    · refine ⟨?_, ?_, ?_⟩ <;> intro h <;>
        simp_all [Store.saveModel, Store.setItem, Store.clearModel, List.headD]

/-- Witness for claim C8: a quota failure on the first write of an empty
store leads to the clear-and-retry effect sequence and a successful retry. -/
theorem saveModel_quota_retry_witness :
    (storeQuota.saveModel (some stTrained) 5).2.2 =
      [SaveEffect.writeAttempt, SaveEffect.clearRecord, SaveEffect.writeAttempt] ∧
    ((storeQuota.saveModel (some stTrained) 5).2.1 = true ↔
      storeQuota.writePlan.tail.headD WriteOutcome.ok = WriteOutcome.ok) :=
  ⟨((saveModel_quota_retry storeQuota stTrained 5).2.1 (by decide)).1,
   ((saveModel_quota_retry storeQuota stTrained 5).2.1 (by decide)).2.1⟩

lemma addTrainingSample_fold (stats : Stats) :
    ∀ (vs : List (List ℚ)) (m : ModelManager), (∀ v ∈ vs, v.length = 3) →
      ((vs.foldl (fun mm v => mm.addTrainingSample (some v) stats) m).model = m.model ∧
       (vs.foldl (fun mm v => mm.addTrainingSample (some v) stats) m).trainingData.length =
         m.trainingData.length + vs.length) := by
  intro vs
  induction vs with
  | nil => intro m _; simp
  | cons v rest ih =>
      intro m hall
      have hv : v.length = 3 := hall v (List.mem_cons_self v rest)
      have hrest : ∀ w ∈ rest, w.length = 3 := fun w hw => hall w (List.mem_cons_of_mem v hw)
      have step : m.addTrainingSample (some v) stats =
          { m with trainingData := m.trainingData ++ [v], featureStats := some stats } := by
        simp [ModelManager.addTrainingSample, hv]
      have := ih ({ m with trainingData := m.trainingData ++ [v],
                           featureStats := some stats }) hrest
      simp only [List.foldl_cons, step]
      refine ⟨this.1, ?_⟩
      rw [this.2]
      simp
      omega

/-- Claim C10: when `loadModelState` succeeds on a manager with no
accumulated samples (the startup situation), the restored manager has a
model — so `predict` takes the scoring branch on any length-3 vector — yet
its training data list is still empty, so `isReady` is `false`; only after
at least 10 valid samples are added through `addTrainingSample` does
`isReady` become `true`. -/
theorem loadModelState_restores_model_but_not_readiness
    (env : Env) (mm : ModelManager) (st : ModelState) (stats : Stats)
    (hfresh : mm.trainingData = [])
    (hload : (ModelManager.loadModelState env mm (some st)).2 = true) :
    ((ModelManager.loadModelState env mm (some st)).1.trainingData = []) ∧
    ((ModelManager.loadModelState env mm (some st)).1.model.isSome = true) ∧
    (ModelManager.isReady (ModelManager.loadModelState env mm (some st)).1 = false) ∧
    (∀ v : List ℚ, v.length = 3 →
      ∃ m, (ModelManager.loadModelState env mm (some st)).1.model = some m ∧
        (ModelManager.loadModelState env mm (some st)).1.predict (some v) =
          min (10 * mseQ v (m.forward v)) 1) ∧
    ∀ vs : List (List ℚ), (∀ v ∈ vs, v.length = 3) → 10 ≤ vs.length →
      ModelManager.isReady
        (vs.foldl (fun m v => m.addTrainingSample (some v) stats)
          (ModelManager.loadModelState env mm (some st)).1) = true := by
  rcases hw : st.weights with _ | ws
  · simp [ModelManager.loadModelState, hw] at hload
  · rcases hb : buildModel ws with _ | m
    · simp [ModelManager.loadModelState, hw, hb] at hload
    · have hres : ModelManager.loadModelState env mm (some st) =
          ({ mm with model := some m, featureStats := st.featureStats }, true) := by
        simp [ModelManager.loadModelState, hw, hb]
      refine ⟨?_, ?_, ?_, ?_⟩
      · simp [hres, hfresh]
      · simp [hres]
      · simp [ModelManager.isReady, hres, hfresh]
      · refine ⟨?_, ?_⟩
        · intro v hv
          refine ⟨m, by simp [hres], ?_⟩
          simp [ModelManager.predict, hres, hv]
        · intro vs hall hlen
          have hfold := addTrainingSample_fold stats vs
            ({ mm with model := some m, featureStats := st.featureStats }) hall
          simp only [hres]
          unfold ModelManager.isReady
          rw [Bool.and_eq_true]
          constructor
          · rw [hfold.1]; rfl
          · rw [decide_eq_true_iff, hfold.2]
            simpa [hfresh] using hlen

/-- Witness for claim C10: restoring `stTrained` into a fresh manager
succeeds but leaves it not ready. -/
theorem loadModelState_restores_model_but_not_readiness_witness :
    ModelManager.isReady (ModelManager.loadModelState env0 ModelManager.init
      (some stTrained)).1 = false :=
  (loadModelState_restores_model_but_not_readiness env0 ModelManager.init stTrained
    statsDefault rfl (by decide)).2.2.1

/-- Claim C9: when the countdown has reached zero (90 000 ms elapsed) and the
timer is still armed, the tick callback switches the phase to `predicting`,
invokes the final `train` call, and only afterwards reads the model state
and hands it to the persistence save; the effect trace is literally
phase change, train, state read, save, so a save attempt never precedes the
completed final training pass. -/
theorem timer_expiry_train_before_save (env : Env) (s : HookState) (now : ℚ)
    (hT : s.timerActive = true)
    (hE : 90000 - (now - s.trainingStartTime.getD 0) ≤ 0)
    (hS : (ModelManager.train env s.mm 10).1.getModelState.isSome = true) :
    (timerTick env s now).1.phase = Phase.predicting ∧
    ((timerTick env s now).2 =
        [Effect.setPhaseTo Phase.predicting, Effect.trainCall,
         Effect.getStateCall, Effect.saveAttempt] ∨
     (timerTick env s now).2 =
        [Effect.setPhaseTo Phase.predicting, Effect.trainCall, Effect.fitRun,
         Effect.getStateCall, Effect.saveAttempt]) := by
  obtain ⟨st, hst⟩ := Option.isSome_iff_exists.mp hS
  have hmax : (max 0 (90000 - (now - s.trainingStartTime.getD 0))) ≤ (0 : ℚ) :=
    max_le le_rfl hE
  by_cases h1 : s.mm.trainingData.length < 10
  · have htr2 : (ModelManager.train env s.mm 10).2 = [] := by
      simp [ModelManager.train, h1]
    exact ⟨by simp [timerTick, hT, hmax, hst, htr2],
           Or.inl (by simp [timerTick, hT, hmax, hst, htr2])⟩
  · by_cases h2 : s.mm.isTraining
    · have htr2 : (ModelManager.train env s.mm 10).2 = [] := by
        simp [ModelManager.train, h1, h2]
      exact ⟨by simp [timerTick, hT, hmax, hst, htr2],
             Or.inl (by simp [timerTick, hT, hmax, hst, htr2])⟩
    · have htr2 : (ModelManager.train env s.mm 10).2 = [Effect.fitRun] := by
        simp [ModelManager.train, h1, h2]
      exact ⟨by simp [timerTick, hT, hmax, hst, htr2],
             Or.inr (by simp [timerTick, hT, hmax, hst, htr2])⟩

/-- Witness for claim C9: an expiring controller holding one untrained batch
runs train, then reads the state, then saves. -/
theorem timer_expiry_train_before_save_witness :
    (timerTick env0 sExpiry 100000).1.phase = Phase.predicting ∧
    ((timerTick env0 sExpiry 100000).2 =
        [Effect.setPhaseTo Phase.predicting, Effect.trainCall,
         Effect.getStateCall, Effect.saveAttempt] ∨
     (timerTick env0 sExpiry 100000).2 =
        [Effect.setPhaseTo Phase.predicting, Effect.trainCall, Effect.fitRun,
         Effect.getStateCall, Effect.saveAttempt]) :=
  timer_expiry_train_before_save env0 sExpiry 100000 (by decide) (by norm_num [sExpiry])
    (by decide)

/-- Counterexample to claim C1: over the 12-event scenario the per-prefix
`samplesCollected` trace is `0,0,0,1,…,10` — it never reaches 11 — and the
single training batch fires at the 12th event, not the 11th.  The feature
extracted at the 2nd event arrives while the callback still sees phase
`idle` (the transition to `training` only takes effect from the next
event), so that feature is not collected. -/
theorem training_scenario_counts :
    (((List.range 13).map fun n =>
        (runEvents env0 initialHookState (evts12.take n)).1.samplesCollected) =
      [0, 0, 0, 1, 2, 3, 4, 5, 6, 7, 8, 9, 10]) ∧
    (runEvents env0 initialHookState evts12).2 =
      List.replicate 11 [] ++ [[Effect.trainCall, Effect.fitRun]] := by
  exact ⟨by decide, by decide⟩


lemma train_scrub_fst (env env' : Env) (mo mo' : Option Model) (it : Bool)
    (td : List (List ℚ)) (fs : Option Stats) (b : ℕ) :
    scrubMM (ModelManager.train env ⟨mo, it, td, fs⟩ b).1 =
      scrubMM (ModelManager.train env' ⟨mo', it, td, fs⟩ b).1 := by
  unfold ModelManager.train
  by_cases h1 : td.length < b
  · simp [h1, scrubMM]
  · by_cases h2 : it <;> rcases mo with _ | m <;> rcases mo' with _ | m' <;>
      simp [h1, h2, scrubMM]

lemma train_scrub_snd (env env' : Env) (mo mo' : Option Model) (it : Bool)
    (td : List (List ℚ)) (fs : Option Stats) (b : ℕ) :
    (ModelManager.train env ⟨mo, it, td, fs⟩ b).2 =
      (ModelManager.train env' ⟨mo', it, td, fs⟩ b).2 := by
  unfold ModelManager.train
  by_cases h1 : td.length < b
  · simp [h1]
  · by_cases h2 : it <;> rcases mo with _ | m <;> rcases mo' with _ | m' <;>
      simp [h1, h2]

lemma train_isTraining_eq (env env' : Env) (mo mo' : Option Model) (it : Bool)
    (td : List (List ℚ)) (fs : Option Stats) (b : ℕ) :
    (ModelManager.train env ⟨mo, it, td, fs⟩ b).1.isTraining =
      (ModelManager.train env' ⟨mo', it, td, fs⟩ b).1.isTraining := by
  have h2 := congrArg ModelManager.isTraining (train_scrub_fst env env' mo mo' it td fs b)
  exact h2

lemma train_trainingData_eq (env env' : Env) (mo mo' : Option Model) (it : Bool)
    (td : List (List ℚ)) (fs : Option Stats) (b : ℕ) :
    (ModelManager.train env ⟨mo, it, td, fs⟩ b).1.trainingData =
      (ModelManager.train env' ⟨mo', it, td, fs⟩ b).1.trainingData := by
  have h2 := congrArg ModelManager.trainingData (train_scrub_fst env env' mo mo' it td fs b)
  exact h2

lemma train_featureStats_eq (env env' : Env) (mo mo' : Option Model) (it : Bool)
    (td : List (List ℚ)) (fs : Option Stats) (b : ℕ) :
    (ModelManager.train env ⟨mo, it, td, fs⟩ b).1.featureStats =
      (ModelManager.train env' ⟨mo', it, td, fs⟩ b).1.featureStats := by
  have h2 := congrArg ModelManager.featureStats (train_scrub_fst env env' mo mo' it td fs b)
  exact h2

lemma handleKeystroke_scrub (env env' : Env) (s s' : HookState) (k t : ℚ)
    (h : scrub s = scrub s') :
    scrub (handleKeystroke env s k t).1 = scrub (handleKeystroke env' s' k t).1 ∧
    (handleKeystroke env s k t).2 = (handleKeystroke env' s' k t).2 := by
  obtain ⟨ph, tr, psc, sc, fe, mm, stg, tst, sl, ta⟩ := s
  obtain ⟨ph', tr', psc', sc', fe', mm', stg', tst', sl', ta'⟩ := s'
  obtain ⟨mo, it, td, fs⟩ := mm
  obtain ⟨mo', it', td', fs'⟩ := mm'
  simp only [scrub, scrubMM, HookState.mk.injEq, ModelManager.mk.injEq,
    true_and, and_true] at h
  obtain ⟨hph, htr, hsc, hfe, hmm, hstg, htst, hsl, hta⟩ := h
  obtain ⟨hit, htd, hfs⟩ := hmm
  subst hph; subst htr; subst hsc; subst hfe; subst hit; subst htd; subst hfs
  subst hstg; subst htst; subst hsl; subst hta
  rcases hex : FeatureExtractor.extractFeatures fe k t with ⟨fe2, raw⟩
  rcases raw with _ | rawf
  · constructor <;> simp [handleKeystroke, hex, scrub, scrubMM]
  · by_cases hid : ph = Phase.idle
    · subst hid
      constructor <;> simp [handleKeystroke, hex, scrub, scrubMM]
    · by_cases htrn : ph = Phase.training
      · subst htrn
        by_cases hb : 10 ≤ sl + 1
        · constructor
          · simp [handleKeystroke, hex, scrub, scrubMM,
              FeatureExtractor.normalizeFeatures, ModelManager.addTrainingSample,
              FeatureExtractor.getStats, hb]
            refine ⟨?_, ?_, ?_⟩
            · exact train_isTraining_eq env env' _ _ _ _ _ _
            · exact train_trainingData_eq env env' _ _ _ _ _ _
            · exact train_featureStats_eq env env' _ _ _ _ _ _
          · simp [handleKeystroke, hex, scrub, scrubMM,
              FeatureExtractor.normalizeFeatures, ModelManager.addTrainingSample,
              FeatureExtractor.getStats, hb]
            exact train_scrub_snd env env' _ _ _ _ _ _
        · constructor <;>
            simp [handleKeystroke, hex, scrub, scrubMM,
              FeatureExtractor.normalizeFeatures, ModelManager.addTrainingSample,
              FeatureExtractor.getStats, hb]
      · by_cases hpred : ph = Phase.predicting
        · subst hpred
          rcases fs with _ | stv <;>
            constructor <;>
              simp [handleKeystroke, hex, scrub, scrubMM,
                FeatureExtractor.normalizeFeaturesWithStats]
        · constructor <;>
            simp [handleKeystroke, hex, scrub, scrubMM, hid, htrn, hpred]

lemma runEvents_scrub (env env' : Env) :
    ∀ (evs : List (ℚ × ℚ)) (s s' : HookState) (acc : List (List Effect)),
      scrub s = scrub s' →
      scrub (evs.foldl (fun acc ev =>
          let r := handleKeystroke env acc.1 ev.1 ev.2
          (r.1, acc.2 ++ [r.2])) (s, acc)).1 =
        scrub (evs.foldl (fun acc ev =>
          let r := handleKeystroke env' acc.1 ev.1 ev.2
          (r.1, acc.2 ++ [r.2])) (s', acc)).1 ∧
      (evs.foldl (fun acc ev =>
          let r := handleKeystroke env acc.1 ev.1 ev.2
          (r.1, acc.2 ++ [r.2])) (s, acc)).2 =
        (evs.foldl (fun acc ev =>
          let r := handleKeystroke env' acc.1 ev.1 ev.2
          (r.1, acc.2 ++ [r.2])) (s', acc)).2 := by
  intro evs
  induction evs with
  | nil => intro s s' acc h; exact ⟨h, rfl⟩
  | cons e rest ih =>
      intro s s' acc h
      obtain ⟨h1, h2⟩ := handleKeystroke_scrub env env' s s' e.1 e.2 h
      simp only [List.foldl_cons]
      rw [h2]
      exact ih (handleKeystroke env s e.1 e.2).1 (handleKeystroke env' s' e.1 e.2).1
        (acc ++ [(handleKeystroke env' s' e.1 e.2).2]) h1

/-- Claim C1 as amended: feeding 12 synthetic key events 50 ms apart with
distinct codes into a fresh controller — for every TensorFlow environment —
the first event emits no feature and collects nothing; the phase is
`training` from the 2nd event on; `samplesCollected` reaches 10, not 11,
because the feature of the 2nd event arrives while the callback still sees
phase `idle` (the transition only takes effect from the next event) and is
dropped; and a training batch fires exactly once, at the 10th collected
sample, i.e. the 12th event rather than the 11th. -/
theorem training_scenario_behavior (env : Env) :
    ((runEvents env initialHookState (evts12.take 1)).1.samplesCollected = 0 ∧
     (runEvents env initialHookState (evts12.take 1)).1.mm.trainingData = [] ∧
     (runEvents env initialHookState (evts12.take 1)).1.phase = Phase.idle) ∧
    (((List.range 13).map fun n =>
        (runEvents env initialHookState (evts12.take n)).1.phase) =
      Phase.idle :: Phase.idle :: List.replicate 11 Phase.training) ∧
    (((List.range 13).map fun n =>
        (runEvents env initialHookState (evts12.take n)).1.samplesCollected) =
      [0, 0, 0, 1, 2, 3, 4, 5, 6, 7, 8, 9, 10]) ∧
    (runEvents env initialHookState evts12).2 =
      List.replicate 11 [] ++ [[Effect.trainCall, Effect.fitRun]] := by
  have hs : ∀ evs : List (ℚ × ℚ),
      scrub (runEvents env initialHookState evs).1 =
        scrub (runEvents env0 initialHookState evs).1 ∧
      (runEvents env initialHookState evs).2 =
        (runEvents env0 initialHookState evs).2 := by
    intro evs
    exact runEvents_scrub env env0 evs initialHookState initialHookState []
      rfl
  have hph : ∀ evs : List (ℚ × ℚ),
      (runEvents env initialHookState evs).1.phase =
        (runEvents env0 initialHookState evs).1.phase := by
    intro evs
    have h2 := congrArg HookState.phase (hs evs).1
    exact h2
  have hsc : ∀ evs : List (ℚ × ℚ),
      (runEvents env initialHookState evs).1.samplesCollected =
        (runEvents env0 initialHookState evs).1.samplesCollected := by
    intro evs
    have h2 := congrArg HookState.samplesCollected (hs evs).1
    exact h2
  have htd : ∀ evs : List (ℚ × ℚ),
      (runEvents env initialHookState evs).1.mm.trainingData =
        (runEvents env0 initialHookState evs).1.mm.trainingData := by
    intro evs
    have h2 := congrArg (fun u => u.mm.trainingData) (hs evs).1
    exact h2
  refine ⟨⟨?_, ?_, ?_⟩, ?_, ?_, ?_⟩
  · rw [hsc]; decide
  · rw [htd]; decide
  · rw [hph]; decide
  · simp only [hph]; decide
  · simp only [hsc]; decide
  · rw [(hs evts12).2]; decide
